import Mathlib

/-!
Shallow embedding of the decision-making core of the Project-DC/chimichangas
repository (pygeneses).  The embedded code is:

* `src/pygeneses/models/reinforce/reinforce_nn.py` — the `Agent` class
  (a two-layer policy network with `forward` and `act`), and
* `src/pygeneses/vitaboard/app.py` — the `/groups` and `/stats` analytics
  endpoints.

Tensors of shape `(n,)` (and the single row of shape-`(1, n)` tensors — the
code always works at batch size 1, via `unsqueeze(0)` and `[0]` indexing)
are modelled as `List ℝ`, float arithmetic as exact real arithmetic.
`torch` raises `RuntimeError` on a shape mismatch inside `fc1` and on
`k` out of range inside `torch.topk`; these two failure points are made
explicit as an `Except` error value, named after the spec's taxonomy.
-/

namespace Chimichangas

/-- Dot product of two real vectors (`torch` matrix–vector row product). -/
def dot (w x : List ℝ) : ℝ := (List.zipWith (· * ·) w x).sum

/-- Model of `torch.nn.Linear`: a weight matrix (one row per output unit)
and a bias vector. -/
structure Linear where
  weight : List (List ℝ)
  bias : List ℝ

/-- `Linear.apply l x = l.weight ⬝ x + l.bias`, one entry per output unit. -/
def Linear.apply (l : Linear) (x : List ℝ) : List ℝ :=
  List.zipWith (fun w b => dot w x + b) l.weight l.bias

/-- `F.relu`, elementwise rectifier. -/
def relu (x : ℝ) : ℝ := max x 0

/-- `F.softmax` over the action dimension: `softmax xs i = exp xsᵢ / Σⱼ exp xsⱼ`. -/
noncomputable def softmax (xs : List ℝ) : List ℝ :=
  xs.map (fun t => Real.exp t / (xs.map Real.exp).sum)

/-- The `Agent` class of `reinforce_nn.py`: configuration sizes plus the two
dense layers built in `__init__` (`fc1 : s_size → h_size`,
`fc2 : h_size → a_size`).  The `device` member only selects where numeric
computation runs and has no effect on the computed values, so it is not
modelled. -/
structure Agent where
  s_size : ℕ
  a_size : ℕ
  h_size : ℕ
  fc1 : Linear
  fc2 : Linear

/-- The shape discipline `nn.Linear(s_size, h_size)` / `nn.Linear(h_size, a_size)`
establishes by construction in `Agent.__init__`. -/
def Agent.WF (m : Agent) : Prop :=
  m.fc1.weight.length = m.h_size ∧ (∀ w ∈ m.fc1.weight, w.length = m.s_size) ∧
  m.fc1.bias.length = m.h_size ∧
  m.fc2.weight.length = m.a_size ∧ (∀ w ∈ m.fc2.weight, w.length = m.h_size) ∧
  m.fc2.bias.length = m.a_size

/-- `Agent.forward` (lines 64–72): `x = fc1(x)`; `embed = x.clone()` taken
before the nonlinearity; `x = relu(x)`; `x = fc2(x)`; returns
`(softmax(x), embed.detach())`.  `clone`/`detach` only decouple the tensor
from the autograd graph; on values they are the identity. -/
noncomputable def Agent.forward (m : Agent) (x : List ℝ) : List ℝ × List ℝ :=
  let h := m.fc1.apply x
  let embed := h
  let out := m.fc2.apply (h.map relu)
  (softmax out, embed)

/-- Errors of the evaluation path, named after the spec's taxonomy:
`ShapeError` is torch's `RuntimeError` for a state whose length differs from
`fc1`'s input size; `InvalidConfigError` is torch's `RuntimeError` for
`torch.topk` with `k` larger than the action dimension. -/
inductive AgentError
  | ShapeError
  | InvalidConfigError
deriving DecidableEq

/-- The tuple returned by `Agent.act`: ranked action indices, the designated
single chosen action, the log-probabilities of the selected actions, and the
embedding. -/
structure DecisionRecord where
  action : List ℕ
  chosen : ℕ
  logProbs : List ℝ
  embed : List ℝ

/-- Ranking order used by `torch.topk`: pairs `(value, index)` sorted by
value, descending. -/
def rankRel (a b : ℝ × ℕ) : Prop := b.1 ≤ a.1

noncomputable instance : DecidableRel rankRel := fun a b => Real.decidableLE b.1 a.1

instance : IsTotal (ℝ × ℕ) rankRel := ⟨fun a b => le_total b.1 a.1⟩

instance : IsTrans (ℝ × ℕ) rankRel := ⟨fun _ _ _ h1 h2 => le_trans h2 h1⟩

/-- The entries of a vector paired with their indices, as `(value, index)`. -/
def indexed (probs : List ℝ) : List (ℝ × ℕ) :=
  probs.enum.map (fun p => (p.2, p.1))

/-- All `(value, index)` pairs of `probs` ranked by value, descending
(model of a full `torch.sort(probs, descending=True)`). -/
noncomputable def rankAll (probs : List ℝ) : List (ℝ × ℕ) :=
  List.insertionSort rankRel (indexed probs)

/-- Model of `torch.topk(probs, k)` (with its default `sorted=True`): the
`k` largest `(value, index)` pairs, values descending. -/
noncomputable def topkSel (probs : List ℝ) (k : ℕ) : List (ℝ × ℕ) :=
  (rankAll probs).take k

/-- The pair `(indices, log(values))` that the `topk` branches of `Agent.act`
build out of `torch.topk`'s result. -/
noncomputable def selectTopk (probs : List ℝ) (k : ℕ) : List ℕ × List ℝ :=
  ((topkSel probs k).map Prod.snd, ((topkSel probs k).map Prod.fst).map Real.log)

/-- Inverse-CDF draw from a categorical distribution: the random source is
injected as `u` (a uniform sample); the drawn index is the first `i` with
`u < probs₀ + ⋯ + probsᵢ`, the last index acting as fallback.  This models
`Categorical(probs).sample()`. -/
noncomputable def catSample : List ℝ → ℝ → ℕ
  | [], _ => 0
  | [_], _ => 0
  | p :: q :: ps, u => if u < p then 0 else catSample (q :: ps) (u - p) + 1

/-- `Categorical(probs).log_prob(i)`: torch normalizes the given weights by
their sum, so the log-probability of `i` is `log (probsᵢ / Σ probs)`. -/
noncomputable def categoricalLogProb (probs : List ℝ) (i : ℕ) : ℝ :=
  Real.log (probs.getD i 0 / probs.sum)

/-- `Agent.act` (lines 74–108).  The state is converted to a batch-1 tensor
and pushed through `forward`; a state of the wrong length makes `fc1` raise
(modelled as `ShapeError` before the branches, where torch raises it).
Branches, in source order:

* `is_rebel`: `torch.topk(probs, k=13)`; raises if `13` exceeds the action
  dimension; returns `(indices, indices[-1], log(values), embed)`;
* `topk > 1`: `torch.topk(probs, k=topk)`; raises if `topk` exceeds the
  action dimension; returns `(indices, indices[0], log(values), embed)`;
* otherwise: samples `Categorical(probs)` (randomness injected as `u`) and
  returns `([a], a, [log_prob a], embed)`. -/
noncomputable def Agent.act (m : Agent) (state : List ℝ) (topk : ℕ)
    (is_rebel : Bool) (u : ℝ) : Except AgentError DecisionRecord :=
  if state.length ≠ m.s_size then .error .ShapeError
  else
    let probs := (m.forward state).1
    let embed := (m.forward state).2
    if is_rebel then
      if probs.length < 13 then .error .InvalidConfigError
      else
        let sel := selectTopk probs 13
        .ok ⟨sel.1, sel.1.getLastD 0, sel.2, embed⟩
    else if 1 < topk then
      if probs.length < topk then .error .InvalidConfigError
      else
        let sel := selectTopk probs topk
        .ok ⟨sel.1, sel.1.headD 0, sel.2, embed⟩
    else
      let a := catSample probs u
      .ok ⟨[a], a, [categoricalLogProb probs a], embed⟩

/-! ## The vitaboard analytics service (`app.py`) -/

/-- A JSON response of the vitaboard endpoints: the `title`/`text`/`icon`
fields always present, plus the optional `coord` payload of `/groups` and
the optional `mean`/`variance`/`qof` payload of `/stats`. -/
structure JsonResp where
  title : String
  text : String
  icon : String
  coord : Option (List (ℝ × ℝ)) := none
  lifeStats : Option (ℝ × ℝ × ℝ) := none

/-- `os.path.join(a, b)` for the purposes of `app.py`. -/
def pathJoin (a b : String) : String := a ++ "/" ++ b

/-- Modelled from the spec: the result of `graph_gen.tsne` (the file
`pygeneses/vitaboard/graph_gen.py` is not part of the embedded sources).
Per the spec, the analytics collaborator turns persisted embeddings into 2D
coordinates and reports a "no data" condition (the `-1` sentinel `app.py`
compares against) when the directory holds no usable embeddings. -/
inductive TsneResult
  | noData
  | coords (cs : List (ℝ × ℝ))

/-- Modelled from the spec: the result of `graph_gen.get_life_stats`
(`graph_gen.py` is not part of the embedded sources).  Per the spec it
computes mean/variance/quality-of-fit time-series statistics from log files
and reports "no data" (the `(-1, -1, -1)` sentinel `app.py` compares
against) when the directory holds no log files. -/
inductive LifeStatsResult
  | noData
  | stats (mean variance qof : ℝ)

/-- The `/groups` endpoint of `app.py` (lines 47–68), parameterized by the
filesystem (`ex` models `os.path.exists`) and the `tsne` collaborator. -/
def groups (ex : String → Bool) (tsneFn : String → TsneResult)
    (location : String) : JsonResp :=
  if ex location = false then
    ⟨"Error", "The location " ++ location ++ " does not exist", "error", none, none⟩
  else if ex (pathJoin location "Embeddings") = false then
    ⟨"Error", "The location " ++ location ++ " does not have any embeddings", "error",
      none, none⟩
  else
    match tsneFn location with
    | TsneResult.noData =>
        ⟨"Error", "The location " ++ location ++ " does not have any embeddings", "error",
          none, none⟩
    | TsneResult.coords cs =>
        ⟨"Success", "Groups generated successfully", "success", some cs, none⟩

/-- The `/stats` endpoint of `app.py` (lines 70–87), parameterized by the
filesystem and the `get_life_stats` collaborator. -/
def stats (ex : String → Bool) (lifeFn : String → LifeStatsResult)
    (location : String) : JsonResp :=
  if ex location = false then
    ⟨"Error", "The location " ++ location ++ " does not exist", "error", none, none⟩
  else
    match lifeFn location with
    | LifeStatsResult.noData =>
        ⟨"Error", "The location " ++ location ++ " does not have any log files", "error",
          none, none⟩
    | LifeStatsResult.stats mean variance qof =>
        ⟨"Success", "Stats generated successfully", "success", none,
          some (mean, variance, qof)⟩

/-! ## Concrete instances used to exercise the theorems -/

/-- A concrete well-formed agent with `s_size = 1`, `a_size = 13`, `h_size = 1`
(the smallest action space rebel mode accepts). -/
def agent13 : Agent :=
  ⟨1, 13, 1, ⟨[[1]], [0]⟩,
    ⟨[[1], [1], [1], [1], [1], [1], [1], [1], [1], [1], [1], [1], [1]],
      [0, 0, 0, 0, 0, 0, 0, 0, 0, 0, 0, 0, 0]⟩⟩

/-- A concrete well-formed agent with `s_size = 1`, `a_size = 5`, `h_size = 1`
(the spec's example scenario has a 5-action space). -/
def agent5 : Agent :=
  ⟨1, 5, 1, ⟨[[1]], [0]⟩, ⟨[[1], [1], [1], [1], [1]], [0, 0, 0, 0, 0]⟩⟩

/-- The decision record the stochastic branch of `Agent.act` builds for
`agent13` on state `[0]` with injected uniform sample `0`. -/
noncomputable def sampleRec : DecisionRecord :=
  ⟨[catSample (agent13.forward [0]).1 0], catSample (agent13.forward [0]).1 0,
    [categoricalLogProb (agent13.forward [0]).1 (catSample (agent13.forward [0]).1 0)],
    (agent13.forward [0]).2⟩

/-! ## Elementary facts about the embedded operations -/

theorem Linear.length_apply (l : Linear) (x : List ℝ) :
    (l.apply x).length = min l.weight.length l.bias.length := by
  simp [Linear.apply]

theorem softmax_length (xs : List ℝ) : (softmax xs).length = xs.length := by
  simp [softmax]

theorem forward_fst_length (m : Agent) (hwf : m.WF) (x : List ℝ) :
    (m.forward x).1.length = m.a_size := by
  obtain ⟨-, -, -, h4, -, h6⟩ := hwf
  simp [Agent.forward, softmax_length, Linear.length_apply, h4, h6]

theorem forward_snd_eq (m : Agent) (x : List ℝ) :
    (m.forward x).2 = m.fc1.apply x := rfl

theorem forward_snd_length (m : Agent) (hwf : m.WF) (x : List ℝ) :
    (m.forward x).2.length = m.h_size := by
  obtain ⟨h1, -, h3, -, -, -⟩ := hwf
  simp [Agent.forward, Linear.length_apply, h1, h3]

theorem softmax_nonneg (xs : List ℝ) : ∀ y ∈ softmax xs, 0 ≤ y := by
  intro y hy
  simp only [softmax, List.mem_map] at hy
  obtain ⟨t, -, rfl⟩ := hy
  have hnum : (0 : ℝ) ≤ Real.exp t := (Real.exp_pos t).le
  have hden : (0 : ℝ) ≤ (xs.map Real.exp).sum := by
    apply List.sum_nonneg
    intro a ha
    simp only [List.mem_map] at ha
    obtain ⟨s, -, rfl⟩ := ha
    exact (Real.exp_pos s).le
  exact div_nonneg hnum hden

theorem sum_map_div (l : List ℝ) (c : ℝ) : (l.map (· / c)).sum = l.sum / c := by
  induction l with
  | nil => simp
  | cons a l ih => simp [ih, add_div]

theorem exp_sum_pos (xs : List ℝ) (h : xs ≠ []) : 0 < (xs.map Real.exp).sum := by
  apply List.sum_pos
  · intro x hx
    simp only [List.mem_map] at hx
    obtain ⟨t, -, rfl⟩ := hx
    exact Real.exp_pos t
  · simpa using h

theorem softmax_sum (xs : List ℝ) (h : xs ≠ []) : (softmax xs).sum = 1 := by
  have hpos := exp_sum_pos xs h
  have : softmax xs = (xs.map Real.exp).map (· / (xs.map Real.exp).sum) := by
    simp [softmax]
  rw [this, sum_map_div, div_self hpos.ne']

/-! ## Facts about the ranking model of `torch.topk` -/

theorem rankAll_perm (probs : List ℝ) : List.Perm (rankAll probs) (indexed probs) :=
  List.perm_insertionSort _ _

theorem indexed_length (probs : List ℝ) : (indexed probs).length = probs.length := by
  simp [indexed]

theorem rankAll_length (probs : List ℝ) : (rankAll probs).length = probs.length := by
  rw [(rankAll_perm probs).length_eq, indexed_length]

theorem rankAll_sorted (probs : List ℝ) : List.Sorted rankRel (rankAll probs) :=
  List.sorted_insertionSort _ _

theorem mem_indexed {probs : List ℝ} {x : ℝ × ℕ} :
    x ∈ indexed probs ↔ probs[x.2]? = some x.1 := by
  obtain ⟨v, i⟩ := x
  simp only [indexed, List.mem_map]
  constructor
  · rintro ⟨⟨j, w⟩, hmem, hx⟩
    obtain ⟨rfl, rfl⟩ : w = v ∧ j = i := by
      simpa [Prod.ext_iff, and_comm] using hx
    exact List.mem_enum_iff_getElem?.1 hmem
  · intro h
    exact ⟨(i, v), List.mem_enum_iff_getElem?.2 h, rfl⟩

theorem mem_rankAll_iff {probs : List ℝ} {x : ℝ × ℕ} :
    x ∈ rankAll probs ↔ probs[x.2]? = some x.1 := by
  rw [(rankAll_perm probs).mem_iff, mem_indexed]

theorem rankAll_snd_perm (probs : List ℝ) :
    List.Perm ((rankAll probs).map Prod.snd) (List.range probs.length) := by
  have h := (rankAll_perm probs).map Prod.snd
  have h2 : (indexed probs).map Prod.snd = List.range probs.length := by
    simp only [indexed, List.map_map]
    have : (Prod.snd ∘ fun p : ℕ × ℝ => (p.2, p.1)) = Prod.fst := rfl
    rw [this, List.enum_map_fst]
  rwa [h2] at h

theorem rankAll_snd_nodup (probs : List ℝ) : ((rankAll probs).map Prod.snd).Nodup :=
  (rankAll_snd_perm probs).nodup_iff.2 (List.nodup_range _)

theorem topkSel_length (probs : List ℝ) (k : ℕ) (h : k ≤ probs.length) :
    (topkSel probs k).length = k := by
  simp [topkSel, rankAll_length, h]

theorem topkSel_sorted (probs : List ℝ) (k : ℕ) :
    List.Sorted rankRel (topkSel probs k) :=
  List.Pairwise.sublist (List.take_sublist _ _) (rankAll_sorted probs)

theorem topkSel_subset {probs : List ℝ} {k : ℕ} {x : ℝ × ℕ}
    (h : x ∈ topkSel probs k) : x ∈ rankAll probs :=
  List.mem_of_mem_take h

theorem topkSel_getD {probs : List ℝ} {k : ℕ} {x : ℝ × ℕ}
    (h : x ∈ topkSel probs k) : x.2 < probs.length ∧ probs.getD x.2 0 = x.1 := by
  have hm := mem_rankAll_iff.1 (topkSel_subset h)
  refine ⟨?_, ?_⟩
  · exact (List.getElem?_eq_some.1 hm).1
  · simp [List.getD_eq_getElem?_getD, hm]

theorem topkSel_ge_drop {probs : List ℝ} {k : ℕ} {x y : ℝ × ℕ}
    (hx : x ∈ topkSel probs k) (hy : y ∈ (rankAll probs).drop k) : y.1 ≤ x.1 := by
  have hp := rankAll_sorted probs
  rw [← List.take_append_drop k (rankAll probs)] at hp
  exact (List.pairwise_append.1 hp).2.2 x hx y hy

theorem not_selected_mem_drop {probs : List ℝ} (k : ℕ) {j : ℕ} (hj : j < probs.length)
    (hns : j ∉ (topkSel probs k).map Prod.snd) :
    (probs.getD j 0, j) ∈ (rankAll probs).drop k := by
  have hmem : (probs.getD j 0, j) ∈ rankAll probs := by
    rw [mem_rankAll_iff]
    simp [List.getD_eq_getElem?_getD, List.getElem?_eq_getElem hj]
  rw [← List.take_append_drop k (rankAll probs), List.mem_append] at hmem
  rcases hmem with h | h
  · exact absurd (List.mem_map_of_mem Prod.snd h) hns
  · exact h

theorem catSample_lt : ∀ (probs : List ℝ) (u : ℝ), probs ≠ [] →
    catSample probs u < probs.length
  | [], _, h => absurd rfl h
  | [_], _, _ => by simp [catSample]
  | p :: q :: ps, u, _ => by
    rw [catSample]
    split
    · simp
    · have ih := catSample_lt (q :: ps) (u - p) (by simp)
      simpa [Nat.succ_lt_succ_iff] using ih

theorem topkSel_def (probs : List ℝ) (k : ℕ) :
    topkSel probs k = (rankAll probs).take k := rfl

theorem topkSel_ne_nil {probs : List ℝ} {k : ℕ} (hk : 0 < k)
    (hlen : k ≤ probs.length) : topkSel probs k ≠ [] := by
  intro hcontra
  have h := topkSel_length probs k hlen
  rw [hcontra] at h
  simp at h
  omega

theorem selectTopk_fst_length {probs : List ℝ} {k : ℕ} (h : k ≤ probs.length) :
    (selectTopk probs k).1.length = k := by
  simp [selectTopk, topkSel_length _ _ h]

theorem selectTopk_snd_length {probs : List ℝ} {k : ℕ} (h : k ≤ probs.length) :
    (selectTopk probs k).2.length = k := by
  simp [selectTopk, topkSel_length _ _ h]

theorem selectTopk_nodup (probs : List ℝ) (k : ℕ) : (selectTopk probs k).1.Nodup := by
  have hs : List.Sublist ((topkSel probs k).map Prod.snd)
      ((rankAll probs).map Prod.snd) := (List.take_sublist _ _).map _
  exact (rankAll_snd_nodup probs).sublist hs

theorem selectTopk_mem_lt {probs : List ℝ} {k i : ℕ}
    (h : i ∈ (selectTopk probs k).1) : i < probs.length := by
  simp only [selectTopk, List.mem_map] at h
  obtain ⟨x, hx, rfl⟩ := h
  exact (topkSel_getD hx).1

theorem selectTopk_sorted_vals (probs : List ℝ) (k : ℕ) :
    ((selectTopk probs k).1.map (fun i => probs.getD i 0)).Sorted (· ≥ ·) := by
  simp only [selectTopk, List.map_map]
  rw [List.Sorted, List.pairwise_map]
  apply List.Pairwise.imp_of_mem ?_ (topkSel_sorted probs k)
  intro a b ha hb hr
  have hA := (topkSel_getD ha).2
  have hB := (topkSel_getD hb).2
  simp only [Function.comp_apply, ge_iff_le, hA, hB]
  exact hr

theorem selectTopk_snd_eq (probs : List ℝ) (k : ℕ) :
    (selectTopk probs k).2 =
      (selectTopk probs k).1.map (fun i => Real.log (probs.getD i 0)) := by
  simp only [selectTopk, List.map_map]
  apply List.map_congr_left
  intro x hx
  have h := (topkSel_getD hx).2
  simp only [Function.comp_apply]
  rw [← h, List.getD_eq_getElem?_getD]

theorem sorted_head_max {l : List (ℝ × ℕ)} (hs : List.Sorted rankRel l) (hne : l ≠ [])
    {x : ℝ × ℕ} (hx : x ∈ l) : x.1 ≤ (l.head hne).1 := by
  cases l with
  | nil => exact absurd rfl hne
  | cons z t =>
    rcases List.mem_cons.1 hx with rfl | ht
    · exact le_refl _
    · exact List.rel_of_sorted_cons hs _ ht

theorem selectTopk_getLastD {probs : List ℝ} {k : ℕ} (hne : topkSel probs k ≠ []) :
    (selectTopk probs k).1.getLastD 0 = ((topkSel probs k).getLast hne).2 := by
  simp only [selectTopk]
  rw [List.getLastD_eq_getLast?, List.getLast?_map, List.getLast?_eq_getLast _ hne]
  rfl

theorem selectTopk_headD {probs : List ℝ} {k : ℕ} (hne : topkSel probs k ≠ []) :
    (selectTopk probs k).1.headD 0 = ((topkSel probs k).head hne).2 := by
  simp only [selectTopk]
  rw [List.headD_eq_head?, List.head?_map, List.head?_eq_head hne]
  rfl

theorem selectTopk_last_min {probs : List ℝ} {k : ℕ} (hk : 0 < k)
    (hlen : k ≤ probs.length) :
    ∀ j < probs.length, j ∉ (selectTopk probs k).1 →
      probs.getD j 0 ≤ probs.getD ((selectTopk probs k).1.getLastD 0) 0 := by
  intro j hj hns
  have hne := topkSel_ne_nil hk hlen
  have hzmem : (topkSel probs k).getLast hne ∈ topkSel probs k := List.getLast_mem hne
  have hdrop := not_selected_mem_drop k hj (by simpa [selectTopk] using hns)
  have hle := topkSel_ge_drop hzmem hdrop
  rw [selectTopk_getLastD hne, (topkSel_getD hzmem).2]
  exact hle

theorem selectTopk_head_max {probs : List ℝ} {k : ℕ} (hk : 0 < k)
    (hlen : k ≤ probs.length) :
    ∀ j < probs.length, probs.getD j 0 ≤ probs.getD ((selectTopk probs k).1.headD 0) 0 := by
  intro j hj
  have hne := topkSel_ne_nil hk hlen
  have hzmem : (topkSel probs k).head hne ∈ topkSel probs k := List.head_mem hne
  rw [selectTopk_headD hne, (topkSel_getD hzmem).2]
  have hmem : (probs.getD j 0, j) ∈ rankAll probs := by
    rw [mem_rankAll_iff]
    simp [List.getD_eq_getElem?_getD, List.getElem?_eq_getElem hj]
  rw [← List.take_append_drop k (rankAll probs), List.mem_append] at hmem
  rcases hmem with h | h
  · rw [← topkSel_def] at h
    exact sorted_head_max (topkSel_sorted probs k) hne h
  · exact topkSel_ge_drop hzmem h

/-! ## Evaluation of `Agent.act` on each branch -/

theorem act_rebel_eq (m : Agent) (state : List ℝ) (topk : ℕ) (u : ℝ)
    (hs : state.length = m.s_size) (hlen : 13 ≤ (m.forward state).1.length) :
    m.act state topk true u =
      .ok ⟨(selectTopk (m.forward state).1 13).1,
           (selectTopk (m.forward state).1 13).1.getLastD 0,
           (selectTopk (m.forward state).1 13).2,
           (m.forward state).2⟩ := by
  unfold Agent.act
  simp [hs, Nat.not_lt.2 hlen]

theorem act_topk_eq (m : Agent) (state : List ℝ) (topk : ℕ) (u : ℝ)
    (hs : state.length = m.s_size) (htop : 1 < topk)
    (hlen : topk ≤ (m.forward state).1.length) :
    m.act state topk false u =
      .ok ⟨(selectTopk (m.forward state).1 topk).1,
           (selectTopk (m.forward state).1 topk).1.headD 0,
           (selectTopk (m.forward state).1 topk).2,
           (m.forward state).2⟩ := by
  unfold Agent.act
  simp [hs, htop, Nat.not_lt.2 hlen]

theorem act_sample_eq (m : Agent) (state : List ℝ) (topk : ℕ) (u : ℝ)
    (hs : state.length = m.s_size) (htop : topk ≤ 1) :
    m.act state topk false u =
      .ok ⟨[catSample (m.forward state).1 u], catSample (m.forward state).1 u,
           [categoricalLogProb (m.forward state).1 (catSample (m.forward state).1 u)],
           (m.forward state).2⟩ := by
  unfold Agent.act
  simp [hs, Nat.not_lt.2 htop]

/-! ## The spec's worked example distribution -/

theorem rankAll_example :
    rankAll [0.1, 0.3, 0.05, 0.45, 0.1] =
      [(0.45, 3), (0.3, 1), (0.1, 0), (0.1, 4), (0.05, 2)] := by
  norm_num [rankAll, indexed, List.enum, List.enumFrom, List.insertionSort,
    List.orderedInsert, rankRel]

theorem selectTopk_example :
    selectTopk [0.1, 0.3, 0.05, 0.45, 0.1] 2 =
      ([3, 1], [Real.log 0.45, Real.log 0.3]) := by
  simp [selectTopk, topkSel, rankAll_example]

theorem act_shape_err (m : Agent) (state : List ℝ) (topk : ℕ) (rb : Bool) (u : ℝ)
    (h : state.length ≠ m.s_size) :
    m.act state topk rb u = Except.error AgentError.ShapeError := by
  unfold Agent.act
  simp [h]

theorem act_rebel_err (m : Agent) (state : List ℝ) (topk : ℕ) (u : ℝ)
    (hs : state.length = m.s_size) (hlen : (m.forward state).1.length < 13) :
    m.act state topk true u = Except.error AgentError.InvalidConfigError := by
  unfold Agent.act
  simp [hs, hlen]

theorem act_topk_err (m : Agent) (state : List ℝ) (topk : ℕ) (u : ℝ)
    (hs : state.length = m.s_size) (htop : 1 < topk)
    (hlen : (m.forward state).1.length < topk) :
    m.act state topk false u = Except.error AgentError.InvalidConfigError := by
  unfold Agent.act
  simp [hs, htop, hlen]

theorem forward_fst_def (m : Agent) (x : List ℝ) :
    (m.forward x).1 = softmax (m.fc2.apply ((m.fc1.apply x).map relu)) := rfl

theorem forward_sum_one (m : Agent) (hwf : m.WF) (x : List ℝ) (ha : 0 < m.a_size) :
    (m.forward x).1.sum = 1 := by
  rw [forward_fst_def]
  apply softmax_sum
  have hlen : (m.fc2.apply ((m.fc1.apply x).map relu)).length = m.a_size := by
    obtain ⟨-, -, -, h4, -, h6⟩ := hwf
    simp [Linear.length_apply, h4, h6]
  intro hcontra
  rw [hcontra] at hlen
  simp at hlen
  omega

/-- Full inversion of a successful `Agent.act` call: the state must have had
the configured length, the embedding is passed through unchanged, and the
record is exactly what one of the three branches builds. -/
theorem act_ok_cases (m : Agent) (state : List ℝ) (topk : ℕ) (rb : Bool) (u : ℝ)
    (r : DecisionRecord) (hr : m.act state topk rb u = Except.ok r) :
    state.length = m.s_size ∧ r.embed = (m.forward state).2 ∧
    ((rb = true ∧ 13 ≤ (m.forward state).1.length ∧
        r = ⟨(selectTopk (m.forward state).1 13).1,
             (selectTopk (m.forward state).1 13).1.getLastD 0,
             (selectTopk (m.forward state).1 13).2, (m.forward state).2⟩) ∨
     (rb = false ∧ 1 < topk ∧ topk ≤ (m.forward state).1.length ∧
        r = ⟨(selectTopk (m.forward state).1 topk).1,
             (selectTopk (m.forward state).1 topk).1.headD 0,
             (selectTopk (m.forward state).1 topk).2, (m.forward state).2⟩) ∨
     (rb = false ∧ topk ≤ 1 ∧
        r = ⟨[catSample (m.forward state).1 u], catSample (m.forward state).1 u,
             [categoricalLogProb (m.forward state).1 (catSample (m.forward state).1 u)],
             (m.forward state).2⟩)) := by
  have hs : state.length = m.s_size := by
    by_contra h
    rw [act_shape_err m state topk rb u h] at hr
    cases hr
  have hcases : (rb = true ∧ 13 ≤ (m.forward state).1.length ∧
        r = ⟨(selectTopk (m.forward state).1 13).1,
             (selectTopk (m.forward state).1 13).1.getLastD 0,
             (selectTopk (m.forward state).1 13).2, (m.forward state).2⟩) ∨
      (rb = false ∧ 1 < topk ∧ topk ≤ (m.forward state).1.length ∧
        r = ⟨(selectTopk (m.forward state).1 topk).1,
             (selectTopk (m.forward state).1 topk).1.headD 0,
             (selectTopk (m.forward state).1 topk).2, (m.forward state).2⟩) ∨
      (rb = false ∧ topk ≤ 1 ∧
        r = ⟨[catSample (m.forward state).1 u], catSample (m.forward state).1 u,
             [categoricalLogProb (m.forward state).1 (catSample (m.forward state).1 u)],
             (m.forward state).2⟩) := by
    cases rb with
    | true =>
      rcases Nat.lt_or_ge (m.forward state).1.length 13 with hlt | hge
      · rw [act_rebel_err m state topk u hs hlt] at hr
        cases hr
      · left
        exact ⟨rfl, hge, (Except.ok.inj (act_rebel_eq m state topk u hs hge ▸ hr)).symm⟩
    | false =>
      rcases Nat.lt_or_ge 1 topk with htop | htop
      · rcases Nat.lt_or_ge (m.forward state).1.length topk with hlt | hge
        · rw [act_topk_err m state topk u hs htop hlt] at hr
          cases hr
        · right; left
          exact ⟨rfl, htop, hge,
            (Except.ok.inj (act_topk_eq m state topk u hs htop hge ▸ hr)).symm⟩
      · right; right
        exact ⟨rfl, htop, (Except.ok.inj (act_sample_eq m state topk u hs htop ▸ hr)).symm⟩
  refine ⟨hs, ?_, hcases⟩
  rcases hcases with ⟨-, -, rfl⟩ | ⟨-, -, -, rfl⟩ | ⟨-, -, rfl⟩ <;> rfl

theorem agent13_wf : agent13.WF := by
  refine ⟨rfl, ?_, rfl, rfl, ?_, rfl⟩ <;> decide

theorem agent5_wf : agent5.WF := by
  refine ⟨rfl, ?_, rfl, rfl, ?_, rfl⟩ <;> decide

/-! ## The claims -/

/-- Claim C1: for every well-formed agent with at least 13 actions and every
state of the configured length, calling `act` with `is_rebel = true` (any
`topk`) succeeds and returns: a ranked list of exactly 13 distinct valid
action indices, ordered by probability descending and dominating every
unselected action, the lowest-ranked (13th) of them as the designated single
chosen action, and the natural logarithm of each of the 13 selected
probabilities. -/
theorem claim1_rebel_selection (m : Agent) (state : List ℝ) (topk : ℕ) (u : ℝ)
    (hwf : m.WF) (hs : state.length = m.s_size) (ha : 13 ≤ m.a_size) :
    ∃ r, m.act state topk true u = Except.ok r ∧
      r.action.length = 13 ∧
      r.action.Nodup ∧
      (∀ i ∈ r.action, i < m.a_size) ∧
      (r.action.map (fun i => (m.forward state).1.getD i 0)).Sorted (· ≥ ·) ∧
      r.chosen = r.action.getLastD 0 ∧
      (∀ j < m.a_size, j ∉ r.action →
        (m.forward state).1.getD j 0 ≤ (m.forward state).1.getD r.chosen 0) ∧
      r.logProbs = r.action.map (fun i => Real.log ((m.forward state).1.getD i 0)) := by
  have hplen : (m.forward state).1.length = m.a_size := forward_fst_length m hwf state
  have hlen13 : 13 ≤ (m.forward state).1.length := by omega
  refine ⟨_, act_rebel_eq m state topk u hs hlen13,
    selectTopk_fst_length hlen13, selectTopk_nodup _ _, ?_,
    selectTopk_sorted_vals _ _, rfl, ?_, selectTopk_snd_eq _ _⟩
  · intro i hi
    exact hplen ▸ selectTopk_mem_lt hi
  · intro j hj hnj
    exact selectTopk_last_min (by norm_num) hlen13 j (by omega) hnj

theorem claim1_witness :
    ∃ r, agent13.act [0] 0 true 0 = Except.ok r ∧
      r.action.length = 13 ∧
      r.action.Nodup ∧
      (∀ i ∈ r.action, i < agent13.a_size) ∧
      (r.action.map (fun i => (agent13.forward [0]).1.getD i 0)).Sorted (· ≥ ·) ∧
      r.chosen = r.action.getLastD 0 ∧
      (∀ j < agent13.a_size, j ∉ r.action →
        (agent13.forward [0]).1.getD j 0 ≤ (agent13.forward [0]).1.getD r.chosen 0) ∧
      r.logProbs = r.action.map (fun i => Real.log ((agent13.forward [0]).1.getD i 0)) :=
  claim1_rebel_selection agent13 [0] 0 0 agent13_wf rfl (by decide)

/-- Claim C2: for every well-formed agent, state of the configured length and
`1 < topk ≤ a_size`, calling `act` with `is_rebel = false` succeeds and
returns the `topk` highest-probability indices in descending probability
order, the single highest-probability index as the designated chosen action,
and the log of each selected probability; and on the spec's example
distribution `[0.1, 0.3, 0.05, 0.45, 0.1]` with `topk = 2` the selection
yields ranked indices `[3, 1]`, chosen action `3`, and log-probabilities
`[ln 0.45, ln 0.3]`. -/
theorem claim2_topk_selection :
    (∀ (m : Agent) (state : List ℝ) (topk : ℕ) (u : ℝ),
      m.WF → state.length = m.s_size → 1 < topk → topk ≤ m.a_size →
      ∃ r, m.act state topk false u = Except.ok r ∧
        r.action.length = topk ∧
        r.action.Nodup ∧
        (∀ i ∈ r.action, i < m.a_size) ∧
        (r.action.map (fun i => (m.forward state).1.getD i 0)).Sorted (· ≥ ·) ∧
        (∀ j < m.a_size, j ∉ r.action →
          (m.forward state).1.getD j 0 ≤
            (m.forward state).1.getD (r.action.getLastD 0) 0) ∧
        r.chosen = r.action.headD 0 ∧
        (∀ j < m.a_size,
          (m.forward state).1.getD j 0 ≤ (m.forward state).1.getD r.chosen 0) ∧
        r.logProbs = r.action.map (fun i => Real.log ((m.forward state).1.getD i 0))) ∧
    (selectTopk [0.1, 0.3, 0.05, 0.45, 0.1] 2).1 = [3, 1] ∧
    (selectTopk [0.1, 0.3, 0.05, 0.45, 0.1] 2).1.headD 0 = 3 ∧
    (selectTopk [0.1, 0.3, 0.05, 0.45, 0.1] 2).2 = [Real.log 0.45, Real.log 0.3] := by
  constructor
  · intro m state topk u hwf hs htop hk
    have hplen : (m.forward state).1.length = m.a_size := forward_fst_length m hwf state
    have hlenk : topk ≤ (m.forward state).1.length := by omega
    refine ⟨_, act_topk_eq m state topk u hs htop hlenk,
      selectTopk_fst_length hlenk, selectTopk_nodup _ _, ?_,
      selectTopk_sorted_vals _ _, ?_, rfl, ?_, selectTopk_snd_eq _ _⟩
    · intro i hi
      exact hplen ▸ selectTopk_mem_lt hi
    · intro j hj hnj
      exact selectTopk_last_min (by omega) hlenk j (by omega) hnj
    · intro j hj
      exact selectTopk_head_max (by omega) hlenk j (by omega)
  · simp [selectTopk_example]

theorem claim2_witness :
    ∃ r, agent13.act [0] 2 false 0 = Except.ok r ∧
      r.action.length = 2 ∧
      r.action.Nodup ∧
      (∀ i ∈ r.action, i < agent13.a_size) ∧
      (r.action.map (fun i => (agent13.forward [0]).1.getD i 0)).Sorted (· ≥ ·) ∧
      (∀ j < agent13.a_size, j ∉ r.action →
        (agent13.forward [0]).1.getD j 0 ≤
          (agent13.forward [0]).1.getD (r.action.getLastD 0) 0) ∧
      r.chosen = r.action.headD 0 ∧
      (∀ j < agent13.a_size,
        (agent13.forward [0]).1.getD j 0 ≤ (agent13.forward [0]).1.getD r.chosen 0) ∧
      r.logProbs = r.action.map (fun i => Real.log ((agent13.forward [0]).1.getD i 0)) :=
  claim2_topk_selection.1 agent13 [0] 2 0 agent13_wf rfl (by decide) (by decide)

/-- Claim C3, counterexample: with 13 actions (so rebel mode's `k = 13` is in
range) and `topk = 14 > a_size`, a rebel-mode call does NOT fail: `topk` is
ignored on the rebel branch and the call succeeds, contradicting the claim
that `topk > a_size` always fails with `InvalidConfigError`. -/
theorem claim3_counterexample :
    agent13.a_size < 14 ∧ (agent13.act [0] 14 true 0).isOk = true := by
  refine ⟨by decide, ?_⟩
  have hlen : 13 ≤ (agent13.forward [0]).1.length := by
    rw [forward_fst_length agent13 agent13_wf]
    decide
  rw [act_rebel_eq agent13 [0] 14 0 rfl hlen]
  rfl

/-- Claim C3 (amended): for a well-formed agent and a state of the configured
length, `act` fails with `InvalidConfigError` (returning no decision record)
whenever rebel mode is requested with `a_size < 13`, or `topk` exceeds
`a_size` in deterministic top-k mode (`is_rebel = false`, `topk > 1`); in
rebel mode the `topk` argument is ignored, so `topk > a_size` alone does not
force a failure. -/
theorem claim3_amended (m : Agent) (state : List ℝ) (topk : ℕ) (rb : Bool)
    (u : ℝ) (hwf : m.WF) (hs : state.length = m.s_size)
    (hbad : (rb = true ∧ m.a_size < 13) ∨ (rb = false ∧ 1 < topk ∧ m.a_size < topk)) :
    m.act state topk rb u = Except.error AgentError.InvalidConfigError := by
  have hplen : (m.forward state).1.length = m.a_size := forward_fst_length m hwf state
  rcases hbad with ⟨rfl, hlt⟩ | ⟨rfl, htop, hlt⟩
  · exact act_rebel_err m state topk u hs (by omega)
  · exact act_topk_err m state topk u hs htop (by omega)

theorem claim3_witness :
    agent5.act [0] 0 true 0 = Except.error AgentError.InvalidConfigError :=
  claim3_amended agent5 [0] 0 true 0 agent5_wf rfl (Or.inl ⟨rfl, by decide⟩)

/-- Claim C4: in every selection mode, every selected action index is in the
valid range and the returned log-probabilities are exactly the natural logs
of the corresponding entries of the distribution `forward` produced. -/
theorem claim4_logprob_consistency (m : Agent) (state : List ℝ) (topk : ℕ)
    (rb : Bool) (u : ℝ) (hwf : m.WF) (ha : 0 < m.a_size) (r : DecisionRecord)
    (hr : m.act state topk rb u = Except.ok r) :
    (∀ i ∈ r.action, i < m.a_size) ∧
    r.logProbs = r.action.map (fun i => Real.log ((m.forward state).1.getD i 0)) := by
  have hplen : (m.forward state).1.length = m.a_size := forward_fst_length m hwf state
  obtain ⟨hs, -, hcases⟩ := act_ok_cases m state topk rb u r hr
  rcases hcases with ⟨-, hge, rfl⟩ | ⟨-, htop, hge, rfl⟩ | ⟨-, htop, rfl⟩
  · exact ⟨fun i hi => hplen ▸ selectTopk_mem_lt hi, selectTopk_snd_eq _ _⟩
  · exact ⟨fun i hi => hplen ▸ selectTopk_mem_lt hi, selectTopk_snd_eq _ _⟩
  · constructor
    · intro i hi
      have hne : (m.forward state).1 ≠ [] := by
        intro hc
        rw [hc] at hplen
        simp at hplen
        omega
      have hlt := catSample_lt (m.forward state).1 u hne
      simp only [List.mem_singleton] at hi
      subst hi
      omega
    · have hsum := forward_sum_one m hwf state ha
      simp only [categoricalLogProb, hsum, div_one, List.map_cons, List.map_nil]

theorem claim4_witness :
    (∀ i ∈ sampleRec.action, i < agent13.a_size) ∧
    sampleRec.logProbs = sampleRec.action.map
      (fun i => Real.log ((agent13.forward [0]).1.getD i 0)) :=
  claim4_logprob_consistency agent13 [0] 0 false 0 agent13_wf (by decide) sampleRec
    (by rw [act_sample_eq agent13 [0] 0 0 rfl (by decide)]; rfl)

/-- Claim C5: a state whose length differs from the configured `s_size` makes
`act` fail with `ShapeError` in every mode, before any decision record is
produced. -/
theorem claim5_shape_error (m : Agent) (state : List ℝ) (topk : ℕ) (rb : Bool)
    (u : ℝ) (h : state.length ≠ m.s_size) :
    m.act state topk rb u = Except.error AgentError.ShapeError :=
  act_shape_err m state topk rb u h

theorem claim5_witness :
    agent13.act [] 0 false 0 = Except.error AgentError.ShapeError :=
  claim5_shape_error agent13 [] 0 false 0 (by decide)

/-- Claim C6: for every well-formed agent with a nonempty action space and
every state of the configured length, the distribution `forward` returns has
exactly `a_size` entries, all non-negative, and sums to 1 (exact real
arithmetic). -/
theorem claim6_distribution (m : Agent) (state : List ℝ)
    (hwf : m.WF) (_hs : state.length = m.s_size) (ha : 0 < m.a_size) :
    (m.forward state).1.length = m.a_size ∧
    (∀ y ∈ (m.forward state).1, 0 ≤ y) ∧
    (m.forward state).1.sum = 1 :=
  ⟨forward_fst_length m hwf state,
   by rw [forward_fst_def]; exact softmax_nonneg _,
   forward_sum_one m hwf state ha⟩

theorem claim6_witness :
    (agent13.forward [0]).1.length = agent13.a_size ∧
    (∀ y ∈ (agent13.forward [0]).1, 0 ≤ y) ∧
    (agent13.forward [0]).1.sum = 1 :=
  claim6_distribution agent13 [0] agent13_wf rfl (by decide)

/-- Claim C7: the embedding `forward` returns is the hidden layer's raw
pre-activation value (`fc1` output before `relu`; `clone`/`detach` are the
identity on values, so the detached snapshot equals it), has length `h_size`,
and is passed through unchanged by `act` in every selection mode. -/
theorem claim7_embedding (m : Agent) (state : List ℝ) (topk : ℕ) (rb : Bool)
    (u : ℝ) (hwf : m.WF) (_hs : state.length = m.s_size) :
    (m.forward state).2 = m.fc1.apply state ∧
    (m.forward state).2.length = m.h_size ∧
    ∀ r, m.act state topk rb u = Except.ok r → r.embed = (m.forward state).2 :=
  ⟨forward_snd_eq m state, forward_snd_length m hwf state,
   fun r hr => (act_ok_cases m state topk rb u r hr).2.1⟩

theorem claim7_witness :
    (agent13.forward [0]).2 = agent13.fc1.apply [0] ∧
    (agent13.forward [0]).2.length = agent13.h_size ∧
    ∀ r, agent13.act [0] 0 true 0 = Except.ok r → r.embed = (agent13.forward [0]).2 :=
  claim7_embedding agent13 [0] 0 true 0 agent13_wf rfl

/-- Claim C9: whenever the requested analytics location is missing, or holds
no embeddings (either the `Embeddings` directory is absent or the `tsne`
collaborator reports no data), or holds no log files (the `get_life_stats`
collaborator reports no data), the `/groups` and `/stats` endpoints return a
structured error response with no payload — they are total functions, so no
exception propagates.  The `tsne` and `get_life_stats` collaborators are
modelled from the spec (`TsneResult`, `LifeStatsResult`). -/
theorem claim9_no_data (ex : String → Bool) (tsneFn : String → TsneResult)
    (lifeFn : String → LifeStatsResult) (location : String) :
    ((ex location = false ∨ ex (pathJoin location "Embeddings") = false ∨
        tsneFn location = TsneResult.noData) →
      (groups ex tsneFn location).title = "Error" ∧
      (groups ex tsneFn location).icon = "error" ∧
      (groups ex tsneFn location).coord = none) ∧
    ((ex location = false ∨ lifeFn location = LifeStatsResult.noData) →
      (stats ex lifeFn location).title = "Error" ∧
      (stats ex lifeFn location).icon = "error" ∧
      (stats ex lifeFn location).lifeStats = none) := by
  constructor
  · intro hcond
    cases hex : ex location with
    | false => simp [groups, hex]
    | true =>
      cases hex2 : ex (pathJoin location "Embeddings") with
      | false => simp [groups, hex, hex2]
      | true =>
        have h3 : tsneFn location = TsneResult.noData := by
          rcases hcond with h | h | h
          · rw [hex] at h
            cases h
          · rw [hex2] at h
            cases h
          · exact h
        simp [groups, hex, hex2, h3]
  · intro hcond
    cases hex : ex location with
    | false => simp [stats, hex]
    | true =>
      have h2 : lifeFn location = LifeStatsResult.noData := by
        rcases hcond with h | h
        · rw [hex] at h
          cases h
        · exact h
      simp [stats, hex, h2]

theorem claim9_witness :
    ((groups (fun _ => false) (fun _ => TsneResult.noData) "run").title = "Error" ∧
     (groups (fun _ => false) (fun _ => TsneResult.noData) "run").icon = "error" ∧
     (groups (fun _ => false) (fun _ => TsneResult.noData) "run").coord = none) ∧
    ((stats (fun _ => false) (fun _ => LifeStatsResult.noData) "run").title = "Error" ∧
     (stats (fun _ => false) (fun _ => LifeStatsResult.noData) "run").icon = "error" ∧
     (stats (fun _ => false) (fun _ => LifeStatsResult.noData) "run").lifeStats = none) :=
  ⟨(claim9_no_data (fun _ => false) (fun _ => TsneResult.noData)
      (fun _ => LifeStatsResult.noData) "run").1 (Or.inl rfl),
   (claim9_no_data (fun _ => false) (fun _ => TsneResult.noData)
      (fun _ => LifeStatsResult.noData) "run").2 (Or.inl rfl)⟩

/-- Claim C10: when `is_rebel = true` the result of `act` is completely
independent of the `topk` argument — the rebel branch is taken before `topk`
is ever consulted, so every output component coincides for any two `topk`
values. -/
theorem claim10_rebel_ignores_topk (m : Agent) (state : List ℝ) (t1 t2 : ℕ)
    (u : ℝ) : m.act state t1 true u = m.act state t2 true u := by
  unfold Agent.act
  by_cases h : state.length ≠ m.s_size
  · rw [if_pos h, if_pos h]
  · rw [if_neg h, if_neg h]
    simp

end Chimichangas
